import Mathlib

/-!
Shallow embedding of the instance-grounding pipeline of
`semqa/data/dataset_readers/hotpotqa/sample_reader.py`
(class `SampleHotpotDatasetReader`).

Python lists become Lean `List`s, dicts become association lists in
insertion order (Python dicts preserve insertion order and the reader never
overwrites a key), numeric linking scores (0.0 / 1.0 markers) become `ℚ`,
fallible code (`KeyError`, `IndexError`, `ValueError`, failed `assert`)
returns `Except Err`.  Two external collaborators that the reader calls are
parameters: the Grammar/World object (`worldActions`, returning the action
inventory for a span vocabulary) and Python's `set` enumeration
(`pySet`, see `isPySetOutput`).
-/

namespace SampleReader

/-- Source constant `QSTR_PREFIX="QSTR:"` (sample_reader.py line 23). -/
def QSTR_TAG : String := "QSTR:"

/-- Source constant `QENT_PREFIX="QENT:"` (sample_reader.py line 24). -/
def QENT_TAG : String := "QENT:"

/-- Source constant `SPAN_DELIM="***"` (sample_reader.py line 25). -/
def SPAN_DELIM : String := "***"

/-- Modelled from the spec: the module `datasets.hotpotqa.utils.constants`
(imported as `hpconstants`) is not under `src/`.  The five answer-type tags
are distinct strings; only their distinctness matters here. -/
def BOOL_TYPE : String := "BOOL"

/-- Modelled from the spec: answer-type tag for string answers
(`hpconstants.STRING_TYPE`, module not under `src/`). -/
def STRING_TYPE : String := "STRING"

/-- Modelled from the spec: answer-type tag for entity answers
(`hpconstants.ENTITY_TYPE`, module not under `src/`). -/
def ENTITY_TYPE : String := "ENTITY"

/-- Modelled from the spec: answer-type tag for number answers
(`hpconstants.NUM_TYPE`, module not under `src/`). -/
def NUM_TYPE : String := "NUM"

/-- Modelled from the spec: answer-type tag for date answers
(`hpconstants.DATE_TYPE`, module not under `src/`). -/
def DATE_TYPE : String := "DATE"

/-- Worker for `pySplit`: scan the characters left to right, cutting at
every (non-overlapping, leftmost) occurrence of the separator.  The fuel
argument (initially the length of the scanned list) only makes the
recursion structural; it never runs out because each step consumes at
least one character. -/
def splitGo (sep : List Char) : Nat → List Char → List Char → List (List Char)
  | _, [], acc => [acc.reverse]
  | 0, s, acc => [acc.reverse ++ s]
  | fuel + 1, c :: rest, acc =>
      if sep.isPrefixOf (c :: rest) then
        acc.reverse :: splitGo sep fuel ((c :: rest).drop sep.length) []
      else
        splitGo sep fuel rest (c :: acc)

/-- Python `s.split(sep)` for a non-empty separator (the reader always
passes one): split at every occurrence of `sep`, keeping empty pieces. -/
def pySplit (s sep : String) : List String :=
  if sep.data.isEmpty then [s]
  else (splitGo sep.data s.data.length s.data []).map (fun l => ⟨l⟩)

/-- Python `s.startswith(pre)`. -/
def pyStartsWith (s pre : String) : Bool := pre.data.isPrefixOf s.data

/-- Python `s.strip()`: drop leading and trailing whitespace. -/
def pyStrip (s : String) : String :=
  ⟨((s.data.dropWhile Char.isWhitespace).reverse.dropWhile Char.isWhitespace).reverse⟩

/-- Fatal failures of the Python code: dict lookup of an absent key,
list indexing out of range, unpacking of a wrong-shaped value, and a
failed `assert`. -/
inductive Err
  | keyError
  | indexError
  | valueError
  | typeError
  | assertionError
deriving DecidableEq, Repr

deriving instance DecidableEq for Except

/-- Decidable success test for `Except`. -/
def exceptIsOk : Except Err α → Bool
  | .ok _ => true
  | .error _ => false

/-- An allennlp `SpanField(start, end)`: a pair of (inclusive) token
coordinates; `(-1, -1)` is the reader's placeholder for "no mention". -/
abbrev Span := Int × Int

/-- One NER mention tuple `(text, start, end, label)`, end exclusive
(used both for question mentions and context mentions). -/
structure Mention where
  text : String
  start : Nat
  stop : Nat
  label : String
deriving DecidableEq, Repr

/-- The four parallel accumulators threaded through `get_ques_spans` and
`get_ques_nemens_ent_spans`: `ques_spans`, `ques_spans2idx` (a dict in
insertion order), `ques_spans_linking_score` and `ques_spans_spanidxs`. -/
structure ExtState where
  spans : List String
  span2idx : List (String × Nat)
  linking : List (List ℚ)
  spanidxs : List Span
deriving DecidableEq, Repr

/-- Python `span in ques_spans2idx` (dict key membership). -/
def dictContains (d : List (String × Nat)) (k : String) : Bool :=
  d.any (fun kv => kv.1 == k)

/-- The value the dict `qtoken2idxs` built in `get_ques_spans`
(lines 190-194) holds at key `t`: every position of `ques_tokens` holding
token `t`, in increasing order; absent keys model a `KeyError`. -/
def occIdxs (ts : List String) (t : String) : List Nat :=
  (List.range ts.length).filter (fun i => ts[i]? == some t)

/-- Lookup in the `qtoken2idxs` dict; `none` is a `KeyError`. -/
def qtoken2idxsLookup (ts : List String) (t : String) : Option (List Nat) :=
  if t ∈ ts then some (occIdxs ts t) else none

/-- The inner loop of lines 215-218: for one `span_token`, set
`linking_score[idx] = 1.0` at every index of `qtoken2idxs[span_token]`. -/
def markToken (ts : List String) (acc : List ℚ) (span_token : String) :
    Except Err (List ℚ) :=
  match qtoken2idxsLookup ts span_token with
  | some idxs => .ok (idxs.foldl (fun a i => a.set i 1) acc)
  | none => .error .keyError

/-- Lines 213-219: start from `[0.0]*len(ques_tokens)` and mark every
`span_token` of the span. -/
def tokenLinkingScore (ts : List String) (span_tokens : List String) :
    Except Err (List ℚ) :=
  span_tokens.foldlM (markToken ts) (List.replicate ts.length 0)

/-- Python `span[len(QSTR_PREFIX):]`. -/
def stripTag (tag s : String) : String := s.drop tag.length

/-- Body of the loop of `get_ques_spans` (lines 203-219) for one entry
`(token_idx, token)` of `enumerate(uniq_ques_tokens)`. -/
def procToken (ts : List String) (st : ExtState) (p : Nat × String) :
    Except Err ExtState :=
  let span := QSTR_TAG ++ p.2
  if dictContains st.span2idx span then .ok st
  else
    match tokenLinkingScore ts (pySplit (stripTag QSTR_TAG span) SPAN_DELIM) with
    | .error e => .error e
    | .ok ls =>
        .ok ⟨st.spans ++ [span],
             st.span2idx ++ [(span, st.span2idx.length)],
             st.linking ++ [ls],
             st.spanidxs ++ [((p.1 : Int), (p.1 : Int))]⟩

/-- The loop of `get_ques_spans` over `enumerate(uniq_ques_tokens)`. -/
def extractLoop (ts : List String) :
    List (Nat × String) → ExtState → Except Err ExtState
  | [], st => .ok st
  | p :: rest, st =>
      match procToken ts st p with
      | .error e => .error e
      | .ok st2 => extractLoop ts rest st2

/-- `get_ques_spans` (lines 162-221).  `uniq_ques_tokens` is
`list(set(ques_tokens))`; Python's `set` enumeration order is
implementation defined (hash based), so it is a parameter `pySet`
constrained by `isPySetOutput` where a claim needs its contract. -/
def get_ques_spans (pySet : List String → List String) (ts : List String) :
    Except Err ExtState :=
  extractLoop ts (pySet ts).enum ⟨[], [], [], []⟩

/-- What Python guarantees about `u = list(set(l))`: `u` enumerates the
distinct elements of `l`, each exactly once, in an unspecified order. -/
abbrev isPySetOutput (u l : List String) : Prop :=
  u.Nodup ∧ (∀ x ∈ u, x ∈ l) ∧ (∀ x ∈ l, x ∈ u)

/-- The `QENT:`-tagged key built from a question mention
(line 270): `QENT_PREFIX + SPAN_DELIM.join(ques_tokens[start:end])`. -/
def qentKey (ts : List String) (m : Mention) : String :=
  QENT_TAG ++ SPAN_DELIM.intercalate ((ts.take m.stop).drop m.start)

/-- Python slice assignment `l[s:e] = [1]*(e-s)` on a list of length
`l.length` (lines 276-277): clamped slice replaced by `e - s` ones. -/
def setSliceOnes (l : List ℚ) (s e : Nat) : List ℚ :=
  let n := l.length
  let s2 := min s n
  let e2 := max s2 (min e n)
  l.take s2 ++ List.replicate (e - s) 1 ++ l.drop e2

/-- The linking score of an entity-mention span (lines 276-277):
`[0]*len(ques_tokens)` with the slice `[start:end)` set to ones. -/
def qentLinking (ts : List String) (m : Mention) : List ℚ :=
  setSliceOnes (List.replicate ts.length 0) m.start m.stop

/-- Body of the loop of `get_ques_nemens_ent_spans` (lines 265-282) for
one zipped pair of a question mention and its coreference grounding. -/
def procQMention (ts : List String) (st : ExtState) (pr : Mention × Int) :
    ExtState :=
  if pr.2 = -1 then st
  else
    let men_span := qentKey ts pr.1
    if dictContains st.span2idx men_span then st
    else
      ⟨st.spans ++ [men_span],
       st.span2idx ++ [(men_span, st.span2idx.length)],
       st.linking ++ [qentLinking ts pr.1],
       st.spanidxs ++ [((pr.1.start : Int), (pr.1.stop : Int) - 1)]⟩

/-- `get_ques_nemens_ent_spans` (lines 224-284): extend the span state
with one `QENT:` span per grounded, not-yet-seen question mention. -/
def get_ques_nemens_ent_spans (ts : List String) (q_ent_ners : List Mention)
    (q_entmens2entidx : List Int) (st : ExtState) : ExtState :=
  (q_ent_ners.zip q_entmens2entidx).foldl (procQMention ts) st

/-- Line 348: `is_global_rule = not (rhs.startswith(QSTR_PREFIX) or
rhs.startswith(QENT_PREFIX))`. -/
def ruleIsGlobal (rhs : String) : Bool :=
  !(pyStartsWith rhs QSTR_TAG || pyStartsWith rhs QENT_TAG)

/-- The loop of lines 346-355 over `world.all_possible_actions()`:
accumulates `production_rule_fields` (rule, is_global flag) and
`linked_rule2idx`.  `rule.split(' -> ')` must yield exactly two parts
(else `ValueError`), and a linked rule whose right-hand side is missing
from `ques_spans2idx` raises a `KeyError`. -/
def actionLoop (span2idx : List (String × Nat)) :
    List String → List (String × Bool) → List (String × Nat) →
    Except Err (List (String × Bool) × List (String × Nat))
  | [], flds, l2i => .ok (flds, l2i)
  | rule :: rest, flds, l2i =>
      match pySplit rule " -> " with
      | [_, rhs] =>
          let g := ruleIsGlobal rhs
          let flds2 := flds ++ [(rule, g)]
          if g then actionLoop span2idx rest flds2 l2i
          else
            match span2idx.lookup rhs with
            | some i => actionLoop span2idx rest flds2 (l2i ++ [(rule, i)])
            | none => .error .keyError
      | _ => .error .valueError

/-- Action classification and linking (lines 343-358). -/
def buildActionFields (actions : List String) (span2idx : List (String × Nat)) :
    Except Err (List (String × Bool) × List (String × Nat)) :=
  actionLoop span2idx actions [] []

/-- State of the per-entity loop of `processMens` (lines 580-593):
`entity_mentions` (one span list per context) and `entity_normval`. -/
structure EntState (α : Type) where
  mentions : List (List Span)
  normval : Option α
deriving Repr

/-- `mens[c_idx][m_idx]` (line 584). -/
def getMen (mens : List (List Mention)) (p : Nat × Nat) : Option Mention :=
  (mens[p.1]?).bind (fun l => l[p.2]?)

/-- Body of the loop of lines 583-593 for one `(context_idx, mention_idx)`
pair: fetch the mention (`IndexError` if out of range), fail if the
context index is out of range (`contexts_tokenized[c_idx]`, line 585),
look up / check the normalized value (lines 587-591: `KeyError` on an
absent key, failed `assert` on a mismatch), and append the inclusive-end
span to the entity's list for that context. -/
def procPair [DecidableEq α] (mens : List (List Mention)) (num_contexts : Nat)
    (norm : Option (List (String × α))) (st : EntState α) (p : Nat × Nat) :
    Except Err (EntState α) :=
  match getMen mens p with
  | none => .error .indexError
  | some men =>
      if p.1 < num_contexts then
        let span : Span := ((men.start : Int), (men.stop : Int) - 1)
        let mentions2 := st.mentions.set p.1 (st.mentions.getD p.1 [] ++ [span])
        match norm with
        | none => .ok ⟨mentions2, st.normval⟩
        | some d =>
            match d.lookup men.text with
            | none => .error .keyError
            | some v =>
                match st.normval with
                | none => .ok ⟨mentions2, some v⟩
                | some v0 =>
                    if v0 = v then .ok ⟨mentions2, some v0⟩
                    else .error .assertionError
      else .error .indexError

/-- The loop of lines 583-593 over one entity's mention pairs. -/
def entityLoop [DecidableEq α] (mens : List (List Mention)) (num_contexts : Nat)
    (norm : Option (List (String × α))) :
    List (Nat × Nat) → EntState α → Except Err (EntState α)
  | [], st => .ok st
  | p :: rest, st =>
      match procPair mens num_contexts norm st p with
      | .error e => .error e
      | .ok st2 => entityLoop mens num_contexts norm rest st2

/-- One iteration of the outer entity loop (lines 579-610): run the
mention loop from `[[] for i in range(num_contexts)]`, put one placeholder
`(-1, -1)` span into every context that got no mention (lines 598-601),
and, when normalization is requested, insist the entity got a normalized
value (`assert` of line 608). -/
def procEntity [DecidableEq α] (mens : List (List Mention)) (num_contexts : Nat)
    (norm : Option (List (String × α))) (entity : List (Nat × Nat)) :
    Except Err (List (List Span) × Option α) :=
  match entityLoop mens num_contexts norm entity
      ⟨List.replicate num_contexts [], none⟩ with
  | .error e => .error e
  | .ok st =>
      let mentions :=
        st.mentions.map (fun ms => if ms.isEmpty then [((-1 : Int), (-1 : Int))] else ms)
      match norm with
      | none => .ok (mentions, none)
      | some _ =>
          match st.normval with
          | none => .error .assertionError
          | some v => .ok (mentions, some v)

/-- The outer loop of `processMens` over `eqent2mens`, collecting the
per-entity mention structures and (when requested) normalized values. -/
def mensLoop [DecidableEq α] (mens : List (List Mention)) (num_contexts : Nat)
    (norm : Option (List (String × α))) :
    List (List (Nat × Nat)) →
    Except Err (List (List (List Span)) × List α)
  | [] => .ok ([], [])
  | ent :: rest =>
      match procEntity mens num_contexts norm ent with
      | .error e => .error e
      | .ok (m, v?) =>
          match mensLoop mens num_contexts norm rest with
          | .error e => .error e
          | .ok (ms, vs) =>
              .ok (m :: ms, match v? with | some v => v :: vs | none => vs)

/-- `processMens` (lines 541-614).  `num_contexts` is
`len(contexts_tokenized)`; the normalization dict and the `FieldClass`
empty value are parameters (`NumberField` / `DateField` live outside
`src/`, and `processMens` only ever calls `FieldClass.empty_object()` on
the degenerate path and `FieldClass(v)` as a wrapper, so the value type is
abstract here).  Lines 572-577 are the degenerate zero-entity branch. -/
def processMens [DecidableEq α] (mens : List (List Mention))
    (eqent2mens : List (List (Nat × Nat))) (num_contexts : Nat)
    (norm : Option (List (String × α))) (emptyVal : α) :
    Except Err (List (List (List Span)) × Option (List α)) :=
  if eqent2mens.isEmpty then
    .ok ([(List.range num_contexts).map (fun _ => [((-1 : Int), (-1 : Int))])],
         if norm.isSome then some [emptyVal] else none)
  else
    match mensLoop mens num_contexts norm eqent2mens with
    | .error e => .error e
    | .ok (ms, vs) => .ok (ms, if norm.isSome then some vs else none)

/-- The per-type answer-grounding mapping of `emptyAnsGroundings`
(lines 498-518), one typed field per answer type, in the order of the
returned dict (BOOL, STRING, ENTITY, DATE, NUM). -/
structure AnsGroundingDict where
  boolG : List ℚ
  stringG : List (List Span)
  entG : List ℚ
  dateG : List ℚ
  numG : List ℚ
deriving DecidableEq, Repr

/-- `emptyAnsGroundings` (lines 498-518). -/
def emptyAnsGroundings (num_contexts n_ent n_num n_date : Nat) :
    AnsGroundingDict :=
  ⟨[0],
   (List.range num_contexts).map (fun _ => [((-1 : Int), (-1 : Int))]),
   List.replicate n_ent 0,
   List.replicate n_date 0,
   List.replicate n_num 0⟩

/-- The loop of lines 528-530 of `processStringGrounding`: append the
(end made inclusive) span to its context's list; starting from
`[[] for _ in range(num_contexts)]`, an out-of-range context index is an
`IndexError`. -/
def stringGroundingLoop (nc : Nat) :
    List (Nat × Nat × Nat) → List (List Span) → Except Err (List (List Span))
  | [], acc => .ok acc
  | (c, s, e) :: rest, acc =>
      if c < nc then
        stringGroundingLoop nc rest
          (acc.set c (acc.getD c [] ++ [((s : Int), (e : Int) - 1)]))
      else .error .indexError

/-- `processStringGrounding` (lines 520-539). -/
def processStringGrounding (nc : Nat) (g : List (Nat × Nat × Nat)) :
    Except Err (List (List Span)) :=
  match stringGroundingLoop nc g ((List.range nc).map (fun _ => [])) with
  | .error e => .error e
  | .ok acc =>
      .ok (acc.map (fun l => if l.isEmpty then [((-1 : Int), (-1 : Int))] else l))

/-- The raw gold `ans_grounding` value of the input record, a sum over the
shapes the reader handles: a scalar for BOOL, the distinguished
`NO_ANS_GROUNDING` sentinel or a `(context_idx, (start, end))` list for
STRING (the sentinel `hpconstants.NO_ANS_GROUNDING` is modelled from the
spec: the constants module is not under `src/`), and an indicator / index
vector for ENTITY, NUM and DATE. -/
inductive RawAns
  | boolean (v : ℚ)
  | stringNoAns
  | stringSpans (l : List (Nat × Nat × Nat))
  | vector (v : List ℚ)
deriving DecidableEq, Repr

/-- Lines 431-457: convert the gold grounding for its type (STRING: skip
the instance when it equals the "no answer" sentinel, else
`processStringGrounding`; BOOL: wrap the scalar; ENTITY/NUM/DATE: pass the
raw vector through), then replace the gold type's entry of
`emptyAnsGroundings` and keep every other type's empty default.
`.ok none` is the "skip this instance" signal.  A grounding whose shape
does not fit the declared type is a `typeError`; a type tag outside the
five modelled types cannot be represented in `AnsGroundingDict` and is
unreachable behind the BOOL-only filter (line 310). -/
def buildAnsGrounding (num_contexts n_ent n_num n_date : Nat)
    (ansType : String) (g : RawAns) : Except Err (Option AnsGroundingDict) :=
  let e := emptyAnsGroundings num_contexts n_ent n_num n_date
  if ansType = STRING_TYPE then
    match g with
    | .stringNoAns => .ok none
    | .stringSpans l =>
        match processStringGrounding num_contexts l with
        | .error er => .error er
        | .ok sg => .ok (some { e with stringG := sg })
    | _ => .error .typeError
  else if ansType = BOOL_TYPE then
    match g with
    | .boolean v => .ok (some { e with boolG := [v] })
    | _ => .error .typeError
  else if ansType = ENTITY_TYPE then
    match g with
    | .vector v => .ok (some { e with entG := v })
    | _ => .error .typeError
  else if ansType = NUM_TYPE then
    match g with
    | .vector v => .ok (some { e with numG := v })
    | _ => .error .typeError
  else if ansType = DATE_TYPE then
    match g with
    | .vector v => .ok (some { e with dateG := v })
    | _ => .error .typeError
  else .error .keyError

/-- Modelled from the spec: `NumberField.empty_object()`
(`semqa.data.datatypes`, not under `src/`), the number type's canonical
empty value; no claim depends on the concrete value. -/
def numberEmptyObject : ℚ := -1

/-- Modelled from the spec: `DateField.empty_object()`
(`semqa.data.datatypes`, not under `src/`), the date type's canonical
empty value; `-1` marks an invalid field. -/
def dateEmptyObject : Int × Int × Int := (-1, -1, -1)

/-- The assembled `Instance` record: the `fields` dict of lines 398-413
plus the optional answer-grounding fields of lines 459-466 (the per-type
grounding entries and `gold_ans_type`, bundled as one optional pair). -/
structure Instance where
  question : List String
  contexts : List (List String)
  ent_mens : List (List (List Span))
  num_nents : Nat
  num_mens : List (List (List Span))
  num_numents : Nat
  date_mens : List (List (List Span))
  num_dateents : Nat
  num_normval : List ℚ
  date_normval : List (Int × Int × Int)
  actions : List (String × Bool)
  linked_rule2idx : List (String × Nat)
  action2ques_linkingscore : List (List ℚ)
  ques_str_action_spans : List Span
  ansGrounding : Option (AnsGroundingDict × String)
deriving DecidableEq, Repr

/-- The body of `text_to_instance` after the answer-type filter
(lines 313-496): tokenize, build the span vocabulary, ask the
Grammar/World collaborator (`worldActions`) for the action inventory,
classify and link the actions, run `processMens` for the three mention
types, and build the answer grounding when gold supervision is present. -/
def textToInstanceCore (pySet : List String → List String)
    (worldActions : List String → List String)
    (ques : String) (q_nemens : List Mention)
    (contexts : List (String × String))
    (contexts_ent_ners contexts_num_ners contexts_date_ners : List (List Mention))
    (context_eqent2entmens context_eqent2nummens context_eqent2datemens :
      List (List (Nat × Nat)))
    (dates_normalized_dict : List (String × (Int × Int × Int)))
    (nums_normalized_dict : List (String × ℚ))
    (qnemens_to_ent : List Int) (ansType : String)
    (ansGrounding : Option RawAns) : Except Err (Option Instance) :=
  let tokenized_ques := pySplit (pyStrip ques) " "
  match get_ques_spans pySet tokenized_ques with
  | .error e => .error e
  | .ok st0 =>
      let st := get_ques_nemens_ent_spans tokenized_ques q_nemens qnemens_to_ent st0
      match buildActionFields (worldActions st.spans) st.span2idx with
      | .error e => .error e
      | .ok (prodFields, linked2idx) =>
          let contexts_tokenized := contexts.map (fun c => pySplit (pyStrip c.2) " ")
          let nc := contexts_tokenized.length
          match processMens (α := Unit) contexts_ent_ners context_eqent2entmens nc none () with
          | .error e => .error e
          | .ok (all_ent_mens, _) =>
              match processMens contexts_num_ners context_eqent2nummens nc
                  (some nums_normalized_dict) numberEmptyObject with
              | .error e => .error e
              | .ok (all_num_mens, num_norm) =>
                  match processMens contexts_date_ners context_eqent2datemens nc
                      (some dates_normalized_dict) dateEmptyObject with
                  | .error e => .error e
                  | .ok (all_date_mens, date_norm) =>
                      let num_enttype_ents := context_eqent2entmens.length
                      let num_numtype_ents := context_eqent2nummens.length
                      let num_datetype_ents := context_eqent2datemens.length
                      let mkInst : Option (AnsGroundingDict × String) → Instance :=
                        fun ag =>
                          ⟨tokenized_ques, contexts_tokenized, all_ent_mens,
                           num_enttype_ents, all_num_mens, num_numtype_ents,
                           all_date_mens, num_datetype_ents,
                           num_norm.getD [], date_norm.getD [],
                           prodFields, linked2idx, st.linking, st.spanidxs, ag⟩
                      match ansGrounding with
                      | none => .ok (some (mkInst none))
                      | some g =>
                          match buildAnsGrounding nc num_enttype_ents
                              num_numtype_ents num_datetype_ents ansType g with
                          | .error e => .error e
                          | .ok none => .ok none
                          | .ok (some d) => .ok (some (mkInst (some (d, ansType))))

/-- `text_to_instance` (lines 286-496).  Line 310: any gold answer type
outside `[hpconstants.BOOL_TYPE]` (including a missing one) is skipped
immediately by returning the "no instance" sentinel (`.ok none`). -/
def text_to_instance (pySet : List String → List String)
    (worldActions : List String → List String)
    (ques : String) (q_nemens : List Mention)
    (contexts : List (String × String))
    (contexts_ent_ners contexts_num_ners contexts_date_ners : List (List Mention))
    (_context_entmens2entidx _context_nummens2entidx _context_datemens2entidx :
      List (List Int))
    (context_eqent2entmens context_eqent2nummens context_eqent2datemens :
      List (List (Nat × Nat)))
    (dates_normalized_dict : List (String × (Int × Int × Int)))
    (nums_normalized_dict : List (String × ℚ))
    (qnemens_to_ent : List Int) (ansType : Option String)
    (ansGrounding : Option RawAns) : Except Err (Option Instance) :=
  match ansType with
  | none => .ok none
  | some t =>
      if t = BOOL_TYPE then
        textToInstanceCore pySet worldActions ques q_nemens contexts
          contexts_ent_ners contexts_num_ners contexts_date_ners
          context_eqent2entmens context_eqent2nummens context_eqent2datemens
          dates_normalized_dict nums_normalized_dict qnemens_to_ent t ansGrounding
      else .ok none

/-- The linking vector the spec describes for a single-token span:
1.0 at every position of the question where the token value occurs,
0.0 elsewhere. -/
def occVector (ts : List String) (t : String) : List ℚ :=
  ts.map (fun x => if x = t then 1 else 0)

/-- First-occurrence-order deduplication: the enumeration order the spec
claims for `list(set(ques_tokens))`. -/
def dedupKeepFirst (l : List String) : List String :=
  l.foldl (fun acc x => if x ∈ acc then acc else acc ++ [x]) []

/-- The `QSTR:`-tagged keys of a token list. -/
def tagKeys (l : List String) : List String := l.map (fun t => QSTR_TAG ++ t)

/-- The `ques_spans2idx` entries appended for a batch of fresh keys,
numbered consecutively from `b`. -/
def dictExt (b : Nat) : List String → List (String × Nat)
  | [] => []
  | k :: ks => (k, b) :: dictExt (b + 1) ks

/-- The concrete instance record produced by `text_to_instance` on a
minimal one-token, one-context BOOLEAN example (used to exercise the
theorems on a concrete input). -/
def cInst9 : Instance :=
  ⟨["a"], [["c"]], [[[((-1 : Int), (-1 : Int))]]], 0,
   [[[((-1 : Int), (-1 : Int))]]], 0, [[[((-1 : Int), (-1 : Int))]]], 0,
   [-1], [(-1, -1, -1)], [], [], [[1]], [((0 : Int), (0 : Int))],
   some (⟨[1], [[((-1 : Int), (-1 : Int))]], [], [], []⟩, BOOL_TYPE)⟩

end SampleReader

namespace SampleReader

lemma qstr_append_inj {a b : String} (h : QSTR_TAG ++ a = QSTR_TAG ++ b) : a = b := by
  have h2 := congrArg String.data h
  simp [String.data_append] at h2
  exact String.ext h2

lemma stripTag_qstr (s : String) : stripTag QSTR_TAG (QSTR_TAG ++ s) = s := by
  apply String.ext
  simp only [stripTag]
  rw [String.data_drop, String.data_append]
  have h : QSTR_TAG.length = QSTR_TAG.data.length := rfl
  rw [h, List.drop_left]

lemma dictContains_append (d1 d2 : List (String × Nat)) (k : String) :
    dictContains (d1 ++ d2) k = (dictContains d1 k || dictContains d2 k) := by
  simp [dictContains, List.any_append]

lemma getElem?_foldl_set (idxs : List Nat) (base : List ℚ) (j : Nat) :
    (idxs.foldl (fun a i => a.set i 1) base)[j]? =
      if j ∈ idxs ∧ j < base.length then some 1 else base[j]? := by
  induction idxs generalizing base with
  | nil => simp
  | cons i is ih =>
      rw [List.foldl_cons, ih, List.length_set]
      by_cases hmem : j ∈ is ∧ j < base.length
      · simp [hmem, List.mem_cons]
      · rw [if_neg hmem, List.getElem?_set]
        by_cases hij : i = j
        · subst hij
          by_cases hlen : i < base.length
          · simp [hlen, List.mem_cons]
          · rw [if_pos rfl, if_neg hlen, if_neg, List.getElem?_eq_none (by omega)]
            omega
        · rw [if_neg hij]
          rw [if_neg]
          rintro ⟨hm, hl⟩
          rcases List.mem_cons.mp hm with h | h
          · exact hij h.symm
          · exact hmem ⟨h, hl⟩

lemma occIdxs_mem (ts : List String) (t : String) (j : Nat) :
    j ∈ occIdxs ts t ↔ j < ts.length ∧ ts[j]? = some t := by
  simp [occIdxs, List.mem_filter, List.mem_range]

lemma occVector_length (ts : List String) (t : String) :
    (occVector ts t).length = ts.length := by
  simp [occVector]

lemma occVector_getElem (ts : List String) (t : String) (j : Nat) (hj : j < ts.length) :
    (occVector ts t)[j]? = some (if ts[j] = t then 1 else 0) := by
  simp [occVector, List.getElem?_map, List.getElem?_eq_getElem hj]

lemma foldl_set_occIdxs (ts : List String) (t : String) :
    (occIdxs ts t).foldl (fun a i => a.set i 1) (List.replicate ts.length (0 : ℚ)) =
      occVector ts t := by
  apply List.ext_getElem?
  intro j
  rw [getElem?_foldl_set, List.length_replicate]
  by_cases hj : j < ts.length
  · rw [occVector_getElem ts t j hj]
    by_cases he : ts[j] = t
    · have hmem : j ∈ occIdxs ts t := by
        rw [occIdxs_mem]
        exact ⟨hj, by rw [List.getElem?_eq_getElem hj, he]⟩
      rw [if_pos ⟨hmem, hj⟩, if_pos he]
    · have hmem : j ∉ occIdxs ts t := by
        rw [occIdxs_mem]
        rintro ⟨-, hsome⟩
        rw [List.getElem?_eq_getElem hj] at hsome
        exact he (Option.some_injective _ hsome)
      rw [if_neg (by tauto), if_neg he, List.getElem?_replicate, if_pos hj]
  · rw [if_neg (by omega), List.getElem?_eq_none (by simpa using hj),
        List.getElem?_eq_none (by rw [occVector_length]; omega)]

lemma tokenLinkingScore_single (ts : List String) (t : String) (ht : t ∈ ts) :
    tokenLinkingScore ts [t] = .ok (occVector ts t) := by
  simp [tokenLinkingScore, List.foldlM, markToken, qtoken2idxsLookup, ht,
        foldl_set_occIdxs]

end SampleReader

namespace SampleReader

lemma extractLoop_spec (ts : List String) :
    ∀ (pending : List (Nat × String)) (st : ExtState),
      (∀ p ∈ pending, p.2 ∈ ts) →
      (∀ p ∈ pending, pySplit p.2 SPAN_DELIM = [p.2]) →
      (∀ p ∈ pending, dictContains st.span2idx (QSTR_TAG ++ p.2) = false) →
      ((pending.map Prod.snd).Nodup) →
      extractLoop ts pending st =
        .ok ⟨st.spans ++ tagKeys (pending.map Prod.snd),
             st.span2idx ++ dictExt st.span2idx.length (tagKeys (pending.map Prod.snd)),
             st.linking ++ pending.map (fun p => occVector ts p.2),
             st.spanidxs ++ pending.map (fun p => ((p.1 : Int), (p.1 : Int)))⟩ := by
  intro pending
  induction pending with
  | nil =>
      intro st _ _ _ _
      simp [extractLoop, tagKeys, dictExt]
  | cons p rest ih =>
      intro st hmem hdelim hfresh hnodup
      have hp2 : p.2 ∈ ts := hmem p (by simp)
      have hd : pySplit p.2 SPAN_DELIM = [p.2] := hdelim p (by simp)
      have hf : dictContains st.span2idx (QSTR_TAG ++ p.2) = false := hfresh p (by simp)
      have hproc : procToken ts st p =
          .ok ⟨st.spans ++ [QSTR_TAG ++ p.2],
               st.span2idx ++ [(QSTR_TAG ++ p.2, st.span2idx.length)],
               st.linking ++ [occVector ts p.2],
               st.spanidxs ++ [((p.1 : Int), (p.1 : Int))]⟩ := by
        simp only [procToken, hf, stripTag_qstr, hd,
                   tokenLinkingScore_single ts p.2 hp2]
        simp
      have hcons : p.2 ∉ rest.map Prod.snd ∧ (rest.map Prod.snd).Nodup := by
        rw [List.map_cons, List.nodup_cons] at hnodup
        exact hnodup
      have hsnd : p.2 ∉ rest.map Prod.snd := hcons.1
      have hnd2 : (rest.map Prod.snd).Nodup := hcons.2
      simp only [extractLoop, hproc]
      rw [ih _ (fun q hq => hmem q (List.mem_cons_of_mem _ hq))
            (fun q hq => hdelim q (List.mem_cons_of_mem _ hq))
            (fun q hq => by
              rw [dictContains_append]
              have h1 : dictContains st.span2idx (QSTR_TAG ++ q.2) = false :=
                hfresh q (List.mem_cons_of_mem _ hq)
              have h2 : dictContains [(QSTR_TAG ++ p.2, st.span2idx.length)]
                  (QSTR_TAG ++ q.2) = false := by
                simp only [dictContains, List.any_cons, List.any_nil,
                           Bool.or_false]
                rw [beq_eq_false_iff_ne]
                intro hc
                exact hsnd (qstr_append_inj hc ▸ List.mem_map_of_mem Prod.snd hq)
              rw [h1, h2]
              rfl)
            hnd2]
      simp [tagKeys, dictExt, List.append_assoc]
lemma enum_snd_mem {l : List String} {p : Nat × String} (hp : p ∈ l.enum) :
    p.2 ∈ l := by
  rcases p with ⟨i, x⟩
  have h := List.mem_enum hp
  rw [h.2]
  exact List.getElem_mem h.1

lemma get_ques_spans_spec (pySet : List String → List String) (ts : List String)
    (hset : isPySetOutput (pySet ts) ts)
    (hdelim : ∀ x ∈ pySet ts, pySplit x SPAN_DELIM = [x]) :
    get_ques_spans pySet ts =
      .ok ⟨tagKeys (pySet ts), dictExt 0 (tagKeys (pySet ts)),
           (pySet ts).map (occVector ts),
           (pySet ts).enum.map (fun p => ((p.1 : Int), (p.1 : Int)))⟩ := by
  rcases hset with ⟨hnd, hsub, _⟩
  rw [get_ques_spans,
      extractLoop_spec ts (pySet ts).enum ⟨[], [], [], []⟩
        (fun p hp => hsub p.2 (enum_snd_mem hp))
        (fun p hp => hdelim p.2 (enum_snd_mem hp))
        (fun p _ => rfl)
        (by rw [List.enum_map_snd]; exact hnd)]
  rw [List.enum_map_snd]
  have hlink : ∀ (l : List String),
      List.map (fun p => occVector ts p.2) l.enum = l.map (occVector ts) := by
    intro l
    have h1 : List.map (occVector ts) (List.map Prod.snd l.enum) =
        List.map (fun p => occVector ts p.2) l.enum := by
      rw [List.map_map]
      rfl
    rw [← h1, List.enum_map_snd]
  simp [hlink]

/-- C2 (counterexample): an enumeration of the distinct question tokens
that satisfies Python's `set` contract but is not in first-occurrence
order makes `get_ques_spans` emit the `QSTR:` spans out of
first-occurrence order, refuting the claim as stated. -/
theorem claim2_counterexample :
    isPySetOutput ((fun l : List String => l.reverse) ["a", "b"]) ["a", "b"] ∧
    Except.map ExtState.spans (get_ques_spans (fun l => l.reverse) ["a", "b"]) ≠
      Except.ok (tagKeys (dedupKeepFirst ["a", "b"])) := by
  constructor
  · decide
  · decide

/-- C2 (amended): the `QSTR:` spans appear in the order of the
`list(set(ques_tokens))` enumeration of the distinct token values, one
span per distinct value; that enumeration order is implementation
defined, not first-occurrence order. -/
theorem claim2_theorem (pySet : List String → List String) (ts : List String)
    (hset : isPySetOutput (pySet ts) ts)
    (hdelim : ∀ x ∈ pySet ts, pySplit x SPAN_DELIM = [x]) :
    Except.map ExtState.spans (get_ques_spans pySet ts) = .ok (tagKeys (pySet ts)) := by
  rw [get_ques_spans_spec pySet ts hset hdelim]
  rfl

/-- Witness for C2 (amended) at a concrete input. -/
theorem claim2_witness :
    isPySetOutput (dedupKeepFirst ["a", "b"]) ["a", "b"] ∧
    (∀ x ∈ dedupKeepFirst ["a", "b"], pySplit x SPAN_DELIM = [x]) ∧
    Except.map ExtState.spans (get_ques_spans dedupKeepFirst ["a", "b"]) =
      .ok (tagKeys (dedupKeepFirst ["a", "b"])) :=
  ⟨by decide, by decide,
   claim2_theorem dedupKeepFirst ["a", "b"] (by decide) (by decide)⟩

/-- C3 (counterexample): a question token containing the span delimiter
(`"a***b"`) is split on the delimiter when its linking score is built, so
the resulting vector is 1.0 at positions where the value does not occur
and 0.0 at the position where it does. -/
theorem claim3_counterexample :
    isPySetOutput (dedupKeepFirst ["a", "b", "a***b"]) ["a", "b", "a***b"] ∧
    Except.map ExtState.spans (get_ques_spans dedupKeepFirst ["a", "b", "a***b"]) =
      .ok ["QSTR:a", "QSTR:b", "QSTR:a***b"] ∧
    Except.map ExtState.linking (get_ques_spans dedupKeepFirst ["a", "b", "a***b"]) =
      .ok [[1, 0, 0], [0, 1, 0], [1, 1, 0]] ∧
    occVector ["a", "b", "a***b"] "a***b" = [0, 0, 1] ∧
    ([1, 1, 0] : List ℚ) ≠ [0, 0, 1] := by
  refine ⟨by decide, by decide, by decide, by decide, by decide⟩

/-- C3 (amended): provided no question token contains the span
delimiter, each distinct token value yields exactly one `QSTR:` span, and
that span's linking vector has length equal to the question length with
1.0 at every position where the value occurs and 0.0 elsewhere. -/
theorem claim3_theorem (pySet : List String → List String) (ts : List String) (t : String)
    (hset : isPySetOutput (pySet ts) ts)
    (hdelim : ∀ x ∈ pySet ts, pySplit x SPAN_DELIM = [x])
    (ht : t ∈ ts) :
    ∃ st, get_ques_spans pySet ts = .ok st ∧
      st.spans.count (QSTR_TAG ++ t) = 1 ∧
      ∃ i : Nat, st.spans[i]? = some (QSTR_TAG ++ t) ∧
        st.linking[i]? = some (occVector ts t) ∧
        (occVector ts t).length = ts.length ∧
        ∀ j, (hj : j < ts.length) →
          (occVector ts t)[j]? = some (if ts[j] = t then 1 else 0) := by
  refine ⟨⟨tagKeys (pySet ts), dictExt 0 (tagKeys (pySet ts)),
      (pySet ts).map (occVector ts),
      (pySet ts).enum.map (fun p => ((p.1 : Int), (p.1 : Int)))⟩,
    get_ques_spans_spec pySet ts hset hdelim, ?_, ?_⟩
  · show (tagKeys (pySet ts)).count (QSTR_TAG ++ t) = 1
    have hinj : Function.Injective (fun x : String => QSTR_TAG ++ x) :=
      fun a b h => qstr_append_inj h
    rw [tagKeys, List.count_map_of_injective _ _ hinj]
    exact List.count_eq_one_of_mem hset.1 (hset.2.2 t ht)
  · have htu : t ∈ pySet ts := hset.2.2 t ht
    obtain ⟨i, hi, hit⟩ := List.getElem_of_mem htu
    refine ⟨i, ?_, ?_, occVector_length ts t, fun j hj => occVector_getElem ts t j hj⟩
    · show (tagKeys (pySet ts))[i]? = some (QSTR_TAG ++ t)
      rw [tagKeys, List.getElem?_map, List.getElem?_eq_getElem hi, hit]
      rfl
    · show ((pySet ts).map (occVector ts))[i]? = some (occVector ts t)
      rw [List.getElem?_map, List.getElem?_eq_getElem hi, hit]
      rfl

/-- Witness for C3 (amended) at a concrete input with a repeated token. -/
theorem claim3_witness :
    isPySetOutput (dedupKeepFirst ["the", "cat", "the"]) ["the", "cat", "the"] ∧
    (∀ x ∈ dedupKeepFirst ["the", "cat", "the"], pySplit x SPAN_DELIM = [x]) ∧
    ("the" ∈ (["the", "cat", "the"] : List String)) ∧
    (∃ st, get_ques_spans dedupKeepFirst ["the", "cat", "the"] = .ok st ∧
      st.spans.count (QSTR_TAG ++ "the") = 1 ∧
      ∃ i : Nat, st.spans[i]? = some (QSTR_TAG ++ "the") ∧
        st.linking[i]? = some (occVector ["the", "cat", "the"] "the") ∧
        (occVector ["the", "cat", "the"] "the").length = (["the", "cat", "the"] : List String).length ∧
        ∀ j, (hj : j < (["the", "cat", "the"] : List String).length) →
          (occVector ["the", "cat", "the"] "the")[j]? =
            some (if (["the", "cat", "the"] : List String)[j] = "the" then 1 else 0)) :=
  ⟨by decide, by decide, by decide,
   claim3_theorem dedupKeepFirst ["the", "cat", "the"] "the" (by decide) (by decide)
     (by decide)⟩

/-- C10: the boundary pair of the i-th `QSTR:` span is `(i, i)` — an
index into the deduplicated token list, not a question position — and on
the concrete question `[x, x, y]` the span for `y` has boundary `(1, 1)`,
which covers no occurrence of `y`. -/
theorem claim10_theorem :
    (∀ (pySet : List String → List String) (ts : List String),
       isPySetOutput (pySet ts) ts →
       (∀ x ∈ pySet ts, pySplit x SPAN_DELIM = [x]) →
       ∃ st, get_ques_spans pySet ts = .ok st ∧
         st.spanidxs.length = st.spans.length ∧
         ∀ i, i < st.spanidxs.length →
           st.spanidxs[i]? = some ((i : Int), (i : Int))) ∧
    (Except.map ExtState.spans (get_ques_spans dedupKeepFirst ["x", "x", "y"]) =
       .ok ["QSTR:x", "QSTR:y"] ∧
     Except.map ExtState.spanidxs (get_ques_spans dedupKeepFirst ["x", "x", "y"]) =
       .ok [((0 : Int), (0 : Int)), ((1 : Int), (1 : Int))] ∧
     (["x", "x", "y"] : List String)[1]? ≠ some "y") := by
  constructor
  · intro pySet ts hset hdelim
    refine ⟨⟨tagKeys (pySet ts), dictExt 0 (tagKeys (pySet ts)),
        (pySet ts).map (occVector ts),
        (pySet ts).enum.map (fun p => ((p.1 : Int), (p.1 : Int)))⟩,
      get_ques_spans_spec pySet ts hset hdelim, ?_, ?_⟩
    · show ((pySet ts).enum.map (fun p => ((p.1 : Int), (p.1 : Int)))).length =
        (tagKeys (pySet ts)).length
      simp [tagKeys]
    · intro i hi
      have hi2 : i < (pySet ts).enum.length := by
        simpa [List.length_map] using hi
      show ((pySet ts).enum.map (fun p => ((p.1 : Int), (p.1 : Int))))[i]? =
        some ((i : Int), (i : Int))
      rw [List.getElem?_map, List.getElem?_eq_getElem hi2, List.getElem_enum]
      rfl
  · exact ⟨by decide, by decide, by decide⟩

/-- Witness for C10 at a concrete input. -/
theorem claim10_witness :
    isPySetOutput (dedupKeepFirst ["x", "x", "y"]) ["x", "x", "y"] ∧
    (∀ x ∈ dedupKeepFirst ["x", "x", "y"], pySplit x SPAN_DELIM = [x]) ∧
    (∃ st, get_ques_spans dedupKeepFirst ["x", "x", "y"] = .ok st ∧
      st.spanidxs.length = st.spans.length ∧
      ∀ i, i < st.spanidxs.length →
        st.spanidxs[i]? = some ((i : Int), (i : Int))) :=
  ⟨by decide, by decide,
   claim10_theorem.1 dedupKeepFirst ["x", "x", "y"] (by decide) (by decide)⟩

lemma setSliceOnes_replicate (n s e : Nat) (hse : s ≤ e) (hen : e ≤ n) :
    setSliceOnes (List.replicate n (0 : ℚ)) s e =
      List.replicate s (0 : ℚ) ++ List.replicate (e - s) 1 ++
        List.replicate (n - e) 0 := by
  simp only [setSliceOnes, List.length_replicate]
  rw [min_eq_left (le_trans hse hen), min_eq_left hen, max_eq_right hse,
      List.take_replicate, List.drop_replicate,
      min_eq_left (le_trans hse hen)]

lemma setSliceOnes_spec (n s e : Nat) (hse : s ≤ e) (hen : e ≤ n) :
    (setSliceOnes (List.replicate n (0 : ℚ)) s e).length = n ∧
    ∀ j, j < n → (setSliceOnes (List.replicate n (0 : ℚ)) s e)[j]? =
      some (if s ≤ j ∧ j < e then 1 else 0) := by
  rw [setSliceOnes_replicate n s e hse hen]
  constructor
  · simp only [List.length_append, List.length_replicate]
    omega
  · intro j hj
    rw [List.append_assoc]
    simp only [List.getElem?_append, List.getElem?_replicate,
               List.length_replicate]
    split_ifs <;> first | rfl | omega

/-- C4: a question mention whose coreference grounding is the ungrounded
sentinel (-1) produces no `QENT:` span; a grounded mention whose key is
already in the span vocabulary is skipped; otherwise the span is appended
with a linking vector that is 1.0 exactly on the token range
`[start, end)` and 0.0 elsewhere. -/
theorem claim4_theorem (ts : List String) (st : ExtState) (m : Mention) (g : Int)
    (rest : List Mention) (grest : List Int) :
    (g = -1 → get_ques_nemens_ent_spans ts (m :: rest) (g :: grest) st =
       get_ques_nemens_ent_spans ts rest grest st) ∧
    (g ≠ -1 → dictContains st.span2idx (qentKey ts m) = true →
       get_ques_nemens_ent_spans ts (m :: rest) (g :: grest) st =
       get_ques_nemens_ent_spans ts rest grest st) ∧
    (g ≠ -1 → dictContains st.span2idx (qentKey ts m) = false →
       get_ques_nemens_ent_spans ts (m :: rest) (g :: grest) st =
       get_ques_nemens_ent_spans ts rest grest
         ⟨st.spans ++ [qentKey ts m],
          st.span2idx ++ [(qentKey ts m, st.span2idx.length)],
          st.linking ++ [qentLinking ts m],
          st.spanidxs ++ [((m.start : Int), (m.stop : Int) - 1)]⟩) ∧
    (m.start ≤ m.stop → m.stop ≤ ts.length →
       (qentLinking ts m).length = ts.length ∧
       ∀ j, j < ts.length →
         (qentLinking ts m)[j]? = some (if m.start ≤ j ∧ j < m.stop then 1 else 0)) := by
  refine ⟨?_, ?_, ?_, ?_⟩
  · intro hg
    simp [get_ques_nemens_ent_spans, List.zip_cons_cons, procQMention, hg]
  · intro hg hdict
    simp [get_ques_nemens_ent_spans, List.zip_cons_cons, procQMention, hg, hdict]
  · intro hg hdict
    simp [get_ques_nemens_ent_spans, List.zip_cons_cons, procQMention, hg, hdict]
  · intro h1 h2
    exact setSliceOnes_spec ts.length m.start m.stop h1 h2

/-- Witness for C4 at a concrete grounded mention. -/
theorem claim4_witness :
    ((0 : Int) ≠ -1) ∧
    (dictContains (⟨[], [], [], []⟩ : ExtState).span2idx
       (qentKey ["a", "b"] ⟨"b", 1, 2, "E"⟩) = false) ∧
    (get_ques_nemens_ent_spans ["a", "b"] [⟨"b", 1, 2, "E"⟩] [0] ⟨[], [], [], []⟩ =
       get_ques_nemens_ent_spans ["a", "b"] [] []
         ⟨[qentKey ["a", "b"] ⟨"b", 1, 2, "E"⟩],
          [(qentKey ["a", "b"] ⟨"b", 1, 2, "E"⟩, 0)],
          [qentLinking ["a", "b"] ⟨"b", 1, 2, "E"⟩],
          [(1, 1)]⟩) ∧
    ((qentLinking ["a", "b"] ⟨"b", 1, 2, "E"⟩).length =
       (["a", "b"] : List String).length ∧
     ∀ j, j < (["a", "b"] : List String).length →
       (qentLinking ["a", "b"] ⟨"b", 1, 2, "E"⟩)[j]? =
         some (if 1 ≤ j ∧ j < 2 then 1 else 0)) := by
  have h4 := claim4_theorem ["a", "b"] ⟨[], [], [], []⟩ ⟨"b", 1, 2, "E"⟩ 0 [] []
  refine ⟨by decide, by decide, ?_, ?_⟩
  · have h := h4.2.2.1 (by decide) (by decide)
    simpa using h
  · exact h4.2.2.2 (by decide) (by decide)

lemma actionLoop_mono (d : List (String × Nat)) :
    ∀ (acts : List String) (flds0 : List (String × Bool)) (l2i0 : List (String × Nat))
      (flds : List (String × Bool)) (l2i : List (String × Nat)),
      actionLoop d acts flds0 l2i0 = .ok (flds, l2i) →
      (∀ x ∈ flds0, x ∈ flds) ∧ (∀ y ∈ l2i0, y ∈ l2i) := by
  intro acts
  induction acts with
  | nil =>
      intro flds0 l2i0 flds l2i h
      simp only [actionLoop, Except.ok.injEq, Prod.mk.injEq] at h
      obtain ⟨h1, h2⟩ := h
      subst h1
      subst h2
      exact ⟨fun x hx => hx, fun y hy => hy⟩
  | cons r rest ih =>
      intro flds0 l2i0 flds l2i h
      simp only [actionLoop] at h
      rcases hsp : pySplit r " -> " with _ | ⟨a, _ | ⟨b, _ | ⟨c, l⟩⟩⟩ <;>
        rw [hsp] at h
      · cases h
      · cases h
      · rcases hg : ruleIsGlobal b with _ | _ <;> simp only [hg] at h
        · rcases hlk : d.lookup b with _ | i <;> simp only [hlk] at h
          · cases h
          · have := ih _ _ _ _ h
            exact ⟨fun x hx => this.1 x (List.mem_append_left _ hx),
                   fun y hy => this.2 y (List.mem_append_left _ hy)⟩
        · have := ih _ _ _ _ h
          exact ⟨fun x hx => this.1 x (List.mem_append_left _ hx), this.2⟩
      · cases h

lemma actionLoop_mem (d : List (String × Nat)) :
    ∀ (acts : List String) (flds0 : List (String × Bool)) (l2i0 : List (String × Nat))
      (flds : List (String × Bool)) (l2i : List (String × Nat)),
      actionLoop d acts flds0 l2i0 = .ok (flds, l2i) →
      ∀ a ∈ acts, ∀ lhs rhs : String, pySplit a " -> " = [lhs, rhs] →
        ((a, ruleIsGlobal rhs) ∈ flds ∧
         (ruleIsGlobal rhs = false →
            ∃ i, d.lookup rhs = some i ∧ (a, i) ∈ l2i)) := by
  intro acts
  induction acts with
  | nil =>
      intro flds0 l2i0 flds l2i _ a ha
      exact absurd ha (List.not_mem_nil a)
  | cons r rest ih =>
      intro flds0 l2i0 flds l2i h a ha lhs rhs hsp
      simp only [actionLoop] at h
      rcases List.mem_cons.mp ha with heq | hmem
      · subst heq
        rw [hsp] at h
        rcases hg : ruleIsGlobal rhs with _ | _ <;> simp only [hg] at h
        · rcases hlk : d.lookup rhs with _ | i <;> simp only [hlk] at h
          · cases h
          · have hm := actionLoop_mono d _ _ _ _ _ h
            refine ⟨hm.1 _ (List.mem_append_right _ (by simp)), ?_⟩
            intro _
            exact ⟨i, rfl, hm.2 _ (List.mem_append_right _ (by simp))⟩
        · have hm := actionLoop_mono d _ _ _ _ _ h
          refine ⟨hm.1 _ (List.mem_append_right _ (by simp)), ?_⟩
          intro hfalse
          simp at hfalse
      · rcases hsp2 : pySplit r " -> " with _ | ⟨x, _ | ⟨y, _ | ⟨z, l⟩⟩⟩ <;>
          rw [hsp2] at h
        · cases h
        · cases h
        · rcases hg2 : ruleIsGlobal y with _ | _ <;> simp only [hg2] at h
          · rcases hlk2 : d.lookup y with _ | i <;> simp only [hlk2] at h
            · cases h
            · exact ih _ _ _ _ h a hmem lhs rhs hsp
          · exact ih _ _ _ _ h a hmem lhs rhs hsp
        · cases h

lemma actionLoop_err (d : List (String × Nat)) (a lhs rhs : String)
    (hsp : pySplit a " -> " = [lhs, rhs])
    (hg : ruleIsGlobal rhs = false) (hlk : d.lookup rhs = none) :
    ∀ (acts : List String) (flds0 : List (String × Bool)) (l2i0 : List (String × Nat)),
      a ∈ acts → exceptIsOk (actionLoop d acts flds0 l2i0) = false := by
  intro acts
  induction acts with
  | nil =>
      intro flds0 l2i0 ha
      exact absurd ha (List.not_mem_nil a)
  | cons r rest ih =>
      intro flds0 l2i0 ha
      simp only [actionLoop]
      rcases List.mem_cons.mp ha with heq | hmem
      · subst heq
        simp [hsp, hg, hlk, exceptIsOk]
      · rcases hsp2 : pySplit r " -> " with _ | ⟨x, _ | ⟨y, _ | ⟨z, l⟩⟩⟩
        · simp [exceptIsOk]
        · simp [exceptIsOk]
        · rcases hg2 : ruleIsGlobal y with _ | _ <;> simp only [hg2]
          · rcases hlk2 : d.lookup y with _ | i <;> simp only [hlk2]
            · simp [exceptIsOk]
            · simpa using ih _ _ hmem
          · simpa using ih _ _ hmem
        · simp [exceptIsOk]

/-- C5: an action is classified global iff its right-hand side starts
with neither `QSTR:` nor `QENT:`; every non-global action is mapped to the
index of its RHS in the span-to-index map; and a non-global action whose
RHS is absent from the span vocabulary makes construction fail fatally
instead of producing an output. -/
theorem claim5_theorem (actions : List String) (d : List (String × Nat))
    (a lhs rhs : String) (ha : a ∈ actions)
    (hsp : pySplit a " -> " = [lhs, rhs]) :
    ((ruleIsGlobal rhs = true ↔
        ¬(pyStartsWith rhs QSTR_TAG = true ∨ pyStartsWith rhs QENT_TAG = true)) ∧
     (∀ flds l2i, buildActionFields actions d = .ok (flds, l2i) →
        (a, ruleIsGlobal rhs) ∈ flds ∧
        (ruleIsGlobal rhs = false →
           ∃ i, d.lookup rhs = some i ∧ (a, i) ∈ l2i)) ∧
     (ruleIsGlobal rhs = false → d.lookup rhs = none →
        exceptIsOk (buildActionFields actions d) = false)) := by
  refine ⟨?_, ?_, ?_⟩
  · rcases h1 : pyStartsWith rhs QSTR_TAG <;>
      rcases h2 : pyStartsWith rhs QENT_TAG <;>
      simp [ruleIsGlobal, h1, h2]
  · intro flds l2i h
    exact actionLoop_mem d actions [] [] flds l2i h a ha lhs rhs hsp
  · intro hg hlk
    exact actionLoop_err d a lhs rhs hsp hg hlk actions [] [] ha

/-- Witness for C5 at a concrete two-action inventory. -/
theorem claim5_witness :
    ("q -> QSTR:a" ∈ (["q -> QSTR:a", "S -> T"] : List String)) ∧
    (pySplit "q -> QSTR:a" " -> " = ["q", "QSTR:a"]) ∧
    ((ruleIsGlobal "QSTR:a" = true ↔
        ¬(pyStartsWith "QSTR:a" QSTR_TAG = true ∨
          pyStartsWith "QSTR:a" QENT_TAG = true)) ∧
     (∀ flds l2i,
        buildActionFields ["q -> QSTR:a", "S -> T"] [("QSTR:a", 4)] = .ok (flds, l2i) →
        ("q -> QSTR:a", ruleIsGlobal "QSTR:a") ∈ flds ∧
        (ruleIsGlobal "QSTR:a" = false →
           ∃ i, ([("QSTR:a", 4)] : List (String × Nat)).lookup "QSTR:a" = some i ∧
             ("q -> QSTR:a", i) ∈ l2i)) ∧
     (ruleIsGlobal "QSTR:a" = false →
        ([("QSTR:a", 4)] : List (String × Nat)).lookup "QSTR:a" = none →
        exceptIsOk (buildActionFields ["q -> QSTR:a", "S -> T"] [("QSTR:a", 4)]) = false)) :=
  ⟨by decide, by decide,
   claim5_theorem ["q -> QSTR:a", "S -> T"] [("QSTR:a", 4)] "q -> QSTR:a" "q" "QSTR:a"
     (by decide) (by decide)⟩

lemma procPair_mentions {α : Type} [DecidableEq α] (mens : List (List Mention))
    (nc : Nat) (norm : Option (List (String × α))) (st st2 : EntState α)
    (p : Nat × Nat) (h : procPair mens nc norm st p = .ok st2) :
    ∃ x, st2.mentions = st.mentions.set p.1 x := by
  simp only [procPair] at h
  split at h
  · cases h
  · split at h
    · split at h
      · cases h
        exact ⟨_, rfl⟩
      · split at h
        · cases h
        · split at h
          · cases h
            exact ⟨_, rfl⟩
          · split at h
            · cases h
              exact ⟨_, rfl⟩
            · cases h
    · cases h

lemma entityLoop_untouched {α : Type} [DecidableEq α] (mens : List (List Mention))
    (nc : Nat) (norm : Option (List (String × α))) :
    ∀ (pairs : List (Nat × Nat)) (st st2 : EntState α),
      entityLoop mens nc norm pairs st = .ok st2 →
      st2.mentions.length = st.mentions.length ∧
      ∀ c : Nat, (∀ p ∈ pairs, p.1 ≠ c) → st2.mentions[c]? = st.mentions[c]? := by
  intro pairs
  induction pairs with
  | nil =>
      intro st st2 h
      simp only [entityLoop] at h
      cases h
      exact ⟨rfl, fun c _ => rfl⟩
  | cons p rest ih =>
      intro st st2 h
      simp only [entityLoop] at h
      rcases hp : procPair mens nc norm st p with e | st1 <;> rw [hp] at h
      · cases h
      · obtain ⟨x, hx⟩ := procPair_mentions mens nc norm st st1 p hp
        have hrec := ih st1 st2 h
        constructor
        · rw [hrec.1, hx, List.length_set]
        · intro c hc
          rw [hrec.2 c (fun q hq => hc q (List.mem_cons_of_mem _ hq)), hx,
              List.getElem?_set]
          rw [if_neg (hc p (by simp))]

lemma procEntity_struct {α : Type} [DecidableEq α] (mens : List (List Mention))
    (nc : Nat) (norm : Option (List (String × α))) (ent : List (Nat × Nat))
    (struct : List (List Span)) (v : Option α)
    (h : procEntity mens nc norm ent = .ok (struct, v)) :
    struct.length = nc ∧
    ∀ c : Nat, c < nc → (∀ p ∈ ent, p.1 ≠ c) →
      struct[c]? = some [((-1 : Int), (-1 : Int))] := by
  simp only [procEntity] at h
  split at h
  · cases h
  · rename_i st hel
    have hu := entityLoop_untouched mens nc norm ent _ st hel
    have hstruct : struct =
        st.mentions.map
          (fun ms => if ms.isEmpty then [((-1 : Int), (-1 : Int))] else ms) := by
      split at h
      · cases h
        rfl
      · split at h
        · cases h
        · cases h
          rfl
    constructor
    · rw [hstruct, List.length_map, hu.1]
      simp
    · intro c hc hcp
      rw [hstruct, List.getElem?_map, hu.2 c hcp]
      show Option.map _ (List.replicate nc ([] : List Span))[c]? = _
      rw [List.getElem?_replicate, if_pos hc]
      rfl

lemma mensLoop_idx {α : Type} [DecidableEq α] (mens : List (List Mention))
    (nc : Nat) (norm : Option (List (String × α))) :
    ∀ (ents : List (List (Nat × Nat))) (ms : List (List (List Span))) (vs : List α),
      mensLoop mens nc norm ents = .ok (ms, vs) →
      ms.length = ents.length ∧
      ∀ i : Nat, i < ents.length →
        ∃ ent r, ents[i]? = some ent ∧
          procEntity mens nc norm ent = .ok r ∧ ms[i]? = some r.1 := by
  intro ents
  induction ents with
  | nil =>
      intro ms vs h
      simp only [mensLoop] at h
      cases h
      exact ⟨rfl, fun i hi => absurd hi (by simp)⟩
  | cons ent rest ih =>
      intro ms vs h
      simp only [mensLoop] at h
      rcases hpe : procEntity mens nc norm ent with e | r <;> rw [hpe] at h
      · cases h
      · rcases r with ⟨m, v?⟩
        rcases hml : mensLoop mens nc norm rest with e | mv <;> rw [hml] at h
        · cases h
        · rcases mv with ⟨ms2, vs2⟩
          cases h
          have hrec := ih ms2 vs2 hml
          constructor
          · simp [hrec.1]
          · intro i hi
            match i with
            | 0 => exact ⟨ent, (m, v?), by simp, hpe, by simp⟩
            | i + 1 =>
                obtain ⟨ent2, r2, h1, h2, h3⟩ := hrec.2 i (by simpa using hi)
                exact ⟨ent2, r2, by simpa using h1, h2, by simpa using h3⟩

/-- C6: for every entity cluster processed by `processMens`, the
produced structure has exactly one entry per passage (passage-index
order), and every passage in which the entity has no mention holds
exactly one placeholder `(-1, -1)` span. -/
theorem claim6_theorem {α : Type} [DecidableEq α] (mens : List (List Mention))
    (eqent2mens : List (List (Nat × Nat))) (nc : Nat)
    (norm : Option (List (String × α))) (emptyVal : α)
    (out : List (List (List Span)) × Option (List α))
    (hok : processMens mens eqent2mens nc norm emptyVal = .ok out)
    (e_idx : Nat) (he : e_idx < eqent2mens.length) :
    ∃ struct, out.1[e_idx]? = some struct ∧ struct.length = nc ∧
      ∀ c : Nat, c < nc → (∀ p ∈ eqent2mens[e_idx], p.1 ≠ c) →
        struct[c]? = some [((-1 : Int), (-1 : Int))] := by
  have hne : eqent2mens.isEmpty = false := by
    cases eqent2mens
    · simp at he
    · rfl
  simp only [processMens, hne, Bool.false_eq_true, if_false] at hok
  rcases hml : mensLoop mens nc norm eqent2mens with e | msvs <;> rw [hml] at hok
  · cases hok
  · rcases msvs with ⟨ms, vs⟩
    have hidx := mensLoop_idx mens nc norm eqent2mens ms vs hml
    obtain ⟨ent, r, hento, hpe, hmsi⟩ := hidx.2 e_idx he
    have hent2 : ent = eqent2mens[e_idx] := by
      rw [List.getElem?_eq_getElem he] at hento
      exact (Option.some_injective _ hento).symm
    have hps := procEntity_struct mens nc norm ent r.1 r.2 hpe
    cases hok
    refine ⟨r.1, hmsi, hps.1, ?_⟩
    intro c hc hcp
    exact hps.2 c hc (by rw [hent2]; exact hcp)

/-- Witness for C6 at a concrete one-entity, two-context input. -/
theorem claim6_witness :
    (processMens (α := Unit) [[⟨"m", 0, 1, "E"⟩]] [[(0, 0)]] 2 none () =
       .ok ([[[((0 : Int), (0 : Int))], [((-1 : Int), (-1 : Int))]]], none)) ∧
    (0 < ([[(0, 0)]] : List (List (Nat × Nat))).length) ∧
    (∃ struct,
      (([[[((0 : Int), (0 : Int))], [((-1 : Int), (-1 : Int))]]],
        (none : Option (List Unit))) :
          List (List (List Span)) × Option (List Unit)).1[0]? = some struct ∧
      struct.length = 2 ∧
      ∀ c : Nat, c < 2 →
        (∀ p ∈ ([[(0, 0)]] : List (List (Nat × Nat)))[0], p.1 ≠ c) →
        struct[c]? = some [((-1 : Int), (-1 : Int))]) :=
  ⟨by decide, by decide,
   claim6_theorem [[⟨"m", 0, 1, "E"⟩]] [[(0, 0)]] 2 none ()
     ([[[((0 : Int), (0 : Int))], [((-1 : Int), (-1 : Int))]]], none)
     (by decide) 0 (by decide)⟩

lemma procPair_norm {α : Type} [DecidableEq α] (mens : List (List Mention))
    (nc : Nat) (d : List (String × α)) (st st2 : EntState α) (p : Nat × Nat)
    (h : procPair mens nc (some d) st p = .ok st2) :
    (∃ m v, getMen mens p = some m ∧ List.lookup m.text d = some v ∧
       st2.normval = some v) ∧
    (∀ v0, st.normval = some v0 → st2.normval = some v0) := by
  simp only [procPair] at h
  split at h
  · cases h
  · rename_i men hm
    split at h
    · split at h
      · cases h
      · rename_i v hl
        split at h
        · rename_i hv
          cases h
          exact ⟨⟨men, v, hm, hl, rfl⟩, fun v0 hv0 => by rw [hv] at hv0; cases hv0⟩
        · rename_i v0 hv
          split at h
          · rename_i hveq
            cases h
            exact ⟨⟨men, v, hm, hl, by rw [hveq]⟩,
                   fun w hw => by rw [hv] at hw; exact hw⟩
          · cases h
    · cases h

lemma entityLoop_norm {α : Type} [DecidableEq α] (mens : List (List Mention))
    (nc : Nat) (d : List (String × α)) :
    ∀ (pairs : List (Nat × Nat)) (st st2 : EntState α),
      entityLoop mens nc (some d) pairs st = .ok st2 →
      ((∀ p ∈ pairs, ∃ m v, getMen mens p = some m ∧
          List.lookup m.text d = some v ∧ st2.normval = some v) ∧
       (∀ v0, st.normval = some v0 → st2.normval = some v0)) := by
  intro pairs
  induction pairs with
  | nil =>
      intro st st2 h
      simp only [entityLoop] at h
      cases h
      exact ⟨by simp, fun v0 hv0 => hv0⟩
  | cons p rest ih =>
      intro st st2 h
      simp only [entityLoop] at h
      rcases hp : procPair mens nc (some d) st p with e | st1 <;> rw [hp] at h
      · cases h
      · have h1 := procPair_norm mens nc d st st1 p hp
        have h2 := ih st1 st2 h
        obtain ⟨⟨m, v, hm, hl, hnv⟩, hpre⟩ := h1
        have hfinal : st2.normval = some v := h2.2 v hnv
        refine ⟨?_, ?_⟩
        · intro q hq
          rcases List.mem_cons.mp hq with heq | hmem
          · subst heq
            exact ⟨m, v, hm, hl, hfinal⟩
          · exact h2.1 q hmem
        · intro v0 hv0
          exact h2.2 v0 (hpre v0 hv0)

lemma mensLoop_ent_ok {α : Type} [DecidableEq α] (mens : List (List Mention))
    (nc : Nat) (norm : Option (List (String × α))) :
    ∀ (ents : List (List (Nat × Nat)))
      (out : List (List (List Span)) × List α),
      mensLoop mens nc norm ents = .ok out →
      ∀ ent ∈ ents, ∃ r, procEntity mens nc norm ent = .ok r := by
  intro ents
  induction ents with
  | nil =>
      intro out _ ent hent
      exact absurd hent (List.not_mem_nil ent)
  | cons e0 rest ih =>
      intro out h ent hent
      simp only [mensLoop] at h
      rcases hpe : procEntity mens nc norm e0 with e | r <;> rw [hpe] at h
      · cases h
      · rcases r with ⟨m, v?⟩
        rcases hml : mensLoop mens nc norm rest with e | mv <;> rw [hml] at h
        · cases h
        · rcases List.mem_cons.mp hent with heq | hmem
          · subst heq
            exact ⟨(m, v?), hpe⟩
          · exact ih mv hml ent hmem

/-- C7: when normalization is requested and two mentions of the same
entity map to different values in the normalization dictionary,
`processMens` fails fatally and produces no output structure. -/
theorem claim7_theorem {α : Type} [DecidableEq α] (mens : List (List Mention))
    (eqent2mens : List (List (Nat × Nat))) (nc : Nat)
    (d : List (String × α)) (emptyVal : α) (ent : List (Nat × Nat))
    (p1 p2 : Nat × Nat) (m1 m2 : Mention) (v1 v2 : α)
    (hent : ent ∈ eqent2mens) (hp1 : p1 ∈ ent) (hp2 : p2 ∈ ent)
    (hm1 : getMen mens p1 = some m1) (hm2 : getMen mens p2 = some m2)
    (hv1 : List.lookup m1.text d = some v1)
    (hv2 : List.lookup m2.text d = some v2) (hne : v1 ≠ v2) :
    exceptIsOk (processMens mens eqent2mens nc (some d) emptyVal) = false := by
  rcases hres : processMens mens eqent2mens nc (some d) emptyVal with e | out
  · rfl
  · exfalso
    have hne2 : eqent2mens.isEmpty = false := by
      cases eqent2mens
      · exact absurd hent (List.not_mem_nil ent)
      · rfl
    simp only [processMens, hne2, Bool.false_eq_true, if_false] at hres
    rcases hml : mensLoop mens nc (some d) eqent2mens with e | msvs <;>
      rw [hml] at hres
    · cases hres
    · obtain ⟨r, hpe⟩ := mensLoop_ent_ok mens nc (some d) eqent2mens msvs hml ent hent
      simp only [procEntity] at hpe
      split at hpe
      · cases hpe
      · rename_i st hel
        have hn := entityLoop_norm mens nc d ent _ st hel
        obtain ⟨ma, va, hma, hla, hnva⟩ := hn.1 p1 hp1
        obtain ⟨mb, vb, hmb, hlb, hnvb⟩ := hn.1 p2 hp2
        rw [hm1] at hma
        rw [hm2] at hmb
        have hma2 : m1 = ma := Option.some_injective _ hma
        have hmb2 : m2 = mb := Option.some_injective _ hmb
        subst hma2
        subst hmb2
        rw [hv1] at hla
        rw [hv2] at hlb
        have hva : v1 = va := Option.some_injective _ hla
        have hvb : v2 = vb := Option.some_injective _ hlb
        subst hva
        subst hvb
        rw [hnva] at hnvb
        exact hne (Option.some_injective _ hnvb)

/-- Witness for C7 at a concrete conflicting input. -/
theorem claim7_witness :
    ((([(0, 0), (0, 1)] : List (Nat × Nat)) ∈
        ([[(0, 0), (0, 1)]] : List (List (Nat × Nat)))) ∧
     ((0, 0) ∈ ([(0, 0), (0, 1)] : List (Nat × Nat))) ∧
     ((0, 1) ∈ ([(0, 0), (0, 1)] : List (Nat × Nat))) ∧
     getMen [[⟨"m", 0, 1, "N"⟩, ⟨"k", 2, 3, "N"⟩]] (0, 0) = some ⟨"m", 0, 1, "N"⟩ ∧
     getMen [[⟨"m", 0, 1, "N"⟩, ⟨"k", 2, 3, "N"⟩]] (0, 1) = some ⟨"k", 2, 3, "N"⟩ ∧
     List.lookup (Mention.mk "m" 0 1 "N").text [("m", (5 : ℚ)), ("k", 7)] = some 5 ∧
     List.lookup (Mention.mk "k" 2 3 "N").text [("m", (5 : ℚ)), ("k", 7)] = some 7 ∧
     (5 : ℚ) ≠ 7) ∧
    exceptIsOk (processMens [[⟨"m", 0, 1, "N"⟩, ⟨"k", 2, 3, "N"⟩]]
      [[(0, 0), (0, 1)]] 1 (some [("m", (5 : ℚ)), ("k", 7)]) (-1)) = false :=
  ⟨⟨by decide, by decide, by decide, by decide, by decide, by decide, by decide,
    by decide⟩,
   claim7_theorem [[⟨"m", 0, 1, "N"⟩, ⟨"k", 2, 3, "N"⟩]] [[(0, 0), (0, 1)]] 1
     [("m", (5 : ℚ)), ("k", 7)] (-1) [(0, 0), (0, 1)] (0, 0) (0, 1)
     ⟨"m", 0, 1, "N"⟩ ⟨"k", 2, 3, "N"⟩ 5 7
     (by decide) (by decide) (by decide) (by decide) (by decide) (by decide)
     (by decide) (by decide)⟩

/-- C8: with zero entity clusters `processMens` returns exactly one
synthetic entity whose every passage holds only the placeholder span,
and, when normalization is requested, the normalized-value list holding
exactly the type's canonical empty value. -/
theorem claim8_theorem {α : Type} [DecidableEq α] (mens : List (List Mention))
    (nc : Nat) (norm : Option (List (String × α))) (emptyVal : α) :
    processMens mens [] nc norm emptyVal =
      .ok ([List.replicate nc [((-1 : Int), (-1 : Int))]],
           if norm.isSome then some [emptyVal] else none) := by
  simp only [processMens, List.isEmpty_nil, if_true]
  have h : (List.range nc).map
      (fun _ => [((-1 : Int), (-1 : Int))]) =
      List.replicate nc [((-1 : Int), (-1 : Int))] := by
    rw [List.map_const']
    simp
  rw [h]

lemma buildAnsGrounding_bool_ne_none (nc a b c : Nat) (g : RawAns)
    (r : Option AnsGroundingDict)
    (h : buildAnsGrounding nc a b c BOOL_TYPE g = .ok r) : r ≠ none := by
  simp only [buildAnsGrounding] at h
  split at h
  · rename_i hs
    exact absurd hs (by decide)
  · split at h
    · cases g with
      | boolean v =>
          cases h
          simp
      | stringNoAns => cases h
      | stringSpans l => cases h
      | vector v => cases h
    · rename_i hb
      exact absurd trivial hb

lemma textToInstanceCore_bool_ne_none (pySet : List String → List String)
    (worldActions : List String → List String)
    (ques : String) (q_nemens : List Mention) (contexts : List (String × String))
    (ce cn cd : List (List Mention)) (ee en ed : List (List (Nat × Nat)))
    (dd : List (String × (Int × Int × Int))) (nd : List (String × ℚ))
    (q : List Int) (g? : Option RawAns) :
    textToInstanceCore pySet worldActions ques q_nemens contexts ce cn cd
      ee en ed dd nd q BOOL_TYPE g? ≠ .ok none := by
  intro h
  simp only [textToInstanceCore] at h
  split at h
  · cases h
  · split at h
    · cases h
    · split at h
      · cases h
      · split at h
        · cases h
        · split at h
          · cases h
          · split at h
            · simp at h
            · split at h
              · cases h
              · rename_i heq
                exact buildAnsGrounding_bool_ne_none _ _ _ _ _ _ heq rfl
              · simp at h

/-- C1: `text_to_instance` returns the "no instance" sentinel (`.ok none`)
when and only when the gold answer type is outside the supported set
(currently only the BOOLEAN tag is accepted, a missing type included) or
the gold type is STRING and its raw grounding is the "no answer" sentinel;
for a BOOLEAN-typed record the result is never the sentinel. -/
theorem claim1_theorem (pySet : List String → List String)
    (worldActions : List String → List String)
    (ques : String) (q_nemens : List Mention) (contexts : List (String × String))
    (ce cn cd : List (List Mention)) (me mn md : List (List Int))
    (ee en ed : List (List (Nat × Nat)))
    (dd : List (String × (Int × Int × Int))) (nd : List (String × ℚ))
    (q : List Int) (ansType : Option String) (ansGrounding : Option RawAns) :
    text_to_instance pySet worldActions ques q_nemens contexts ce cn cd
        me mn md ee en ed dd nd q ansType ansGrounding = .ok none ↔
      (ansType ≠ some BOOL_TYPE ∨
       (ansType = some STRING_TYPE ∧ ansGrounding = some RawAns.stringNoAns)) := by
  constructor
  · intro h
    by_cases hb : ansType = some BOOL_TYPE
    · exfalso
      rw [hb] at h
      simp only [text_to_instance, if_true] at h
      exact textToInstanceCore_bool_ne_none pySet worldActions ques q_nemens
        contexts ce cn cd ee en ed dd nd q ansGrounding h
    · exact Or.inl hb
  · intro h
    rcases h with hne | ⟨hs, _⟩
    · rcases ansType with _ | t
      · simp [text_to_instance]
      · simp only [text_to_instance]
        rw [if_neg (fun hteq : t = BOOL_TYPE => hne (by rw [hteq]))]
    · rw [hs]
      simp only [text_to_instance]
      rw [if_neg (by decide : ¬(STRING_TYPE = BOOL_TYPE))]

lemma buildAnsGrounding_bool (nc a b c : Nat) (v : ℚ) :
    buildAnsGrounding nc a b c BOOL_TYPE (.boolean v) =
      .ok (some ⟨[v], (List.range nc).map (fun _ => [((-1 : Int), (-1 : Int))]),
                 List.replicate a 0, List.replicate c 0, List.replicate b 0⟩) := by
  simp only [buildAnsGrounding, emptyAnsGroundings]
  simp
  decide

/-- C9: for a gold BOOLEAN answer with value true, the per-type
grounding of the assembled instance is `[1.0]` for BOOLEAN, one
placeholder span per passage for STRING, and zero vectors of the
respective entity counts for ENTITY, DATE and NUM: the gold type's entry
replaces its empty default and every other type keeps its default. -/
theorem claim9_theorem (pySet : List String → List String)
    (worldActions : List String → List String)
    (ques : String) (q_nemens : List Mention) (contexts : List (String × String))
    (ce cn cd : List (List Mention)) (me mn md : List (List Int))
    (ee en ed : List (List (Nat × Nat)))
    (dd : List (String × (Int × Int × Int))) (nd : List (String × ℚ))
    (q : List Int) (ansType : Option String) (ansGrounding : Option RawAns)
    (inst : Instance)
    (hty : ansType = some BOOL_TYPE)
    (hg : ansGrounding = some (RawAns.boolean 1))
    (hok : text_to_instance pySet worldActions ques q_nemens contexts ce cn cd
        me mn md ee en ed dd nd q ansType ansGrounding = .ok (some inst)) :
    inst.ansGrounding = some
      (⟨[1], (List.range contexts.length).map (fun _ => [((-1 : Int), (-1 : Int))]),
        List.replicate ee.length 0, List.replicate ed.length 0,
        List.replicate en.length 0⟩, BOOL_TYPE) := by
  subst hty
  subst hg
  simp only [text_to_instance, if_true] at hok
  simp only [textToInstanceCore] at hok
  split at hok
  · cases hok
  · split at hok
    · cases hok
    · split at hok
      · cases hok
      · split at hok
        · cases hok
        · split at hok
          · cases hok
          · split at hok
            · cases hok
            · cases hok
            · rename_i heq
              rw [buildAnsGrounding_bool _ ee.length en.length ed.length 1] at heq
              cases hok
              cases heq
              show some _ = _
              rw [List.length_map]

/-- Witness for C9 at a concrete one-token, one-context record. -/
theorem claim9_witness :
    (text_to_instance dedupKeepFirst (fun _ => []) "a" [] [("t", "c")]
        [] [] [] [] [] [] [] [] [] [] [] [] (some BOOL_TYPE)
        (some (RawAns.boolean 1)) = .ok (some cInst9)) ∧
    cInst9.ansGrounding = some
      (⟨[1],
        (List.range ([("t", "c")] : List (String × String)).length).map
          (fun _ => [((-1 : Int), (-1 : Int))]),
        List.replicate ([] : List (List (Nat × Nat))).length 0,
        List.replicate ([] : List (List (Nat × Nat))).length 0,
        List.replicate ([] : List (List (Nat × Nat))).length 0⟩, BOOL_TYPE) :=
  ⟨by decide,
   claim9_theorem dedupKeepFirst (fun _ => []) "a" [] [("t", "c")]
     [] [] [] [] [] [] [] [] [] [] [] [] (some BOOL_TYPE)
     (some (RawAns.boolean 1)) cInst9 rfl rfl (by decide)⟩

end SampleReader
